import Mathlib

/-!
Shallow embedding of `src/niftypet/timing.py` (class `ReconMetadata`).

Timestamps (Python `time.time()` floats) are modelled as rationals and are
passed explicitly to each operation that reads the clock.  Python `dict`s are
modelled as insertion-ordered association lists with Python-`dict` update
semantics (updating an existing key keeps its position, a new key is appended).
Python exceptions are modelled by `Except PyError`; each operation that can
raise returns `Except`, and an operation that mutates `self` returns the new
state explicitly.
-/

set_option autoImplicit false

namespace Timing

/-- Python exceptions that the code in `timing.py` can raise. -/
inductive PyError where
  /-- `KeyError` carrying the missing key. -/
  | keyError (key : String)
  /-- `IndexError`, e.g. `durations[0]` on an empty list. -/
  | indexError
  /-- `RuntimeError` carrying its message. -/
  | runtimeError (msg : String)
  /-- `AttributeError` for reading an attribute that was never assigned. -/
  | attributeError (name : String)
deriving DecidableEq, Repr

deriving instance DecidableEq for Except

/-- A timing interval: the Python code stores it as a dict that may hold the
keys `"start"` and `"end"`; reading an absent key raises `KeyError`. -/
structure Interval where
  start : Option ℚ
  end_ : Option ℚ
deriving DecidableEq, Repr

/-- Python `d[k]` lookup on an association-list dict: first (unique) match. -/
def dictGet? {α : Type} : List (String × α) → String → Option α
  | [], _ => none
  | (k, v) :: rest, key => if k = key then some v else dictGet? rest key

/-- Python `d[k] = v`: replace the value at an existing key in place, else
append the new binding at the end (insertion order preserved). -/
def dictSet {α : Type} : List (String × α) → String → α → List (String × α)
  | [], key, v => [(key, v)]
  | (k, w) :: rest, key, v =>
    if k = key then (key, v) :: rest else (k, w) :: dictSet rest key v

/-- Python `d[k]` as an exception-raising read (`KeyError` when absent). -/
def dictGetE {α : Type} (d : List (String × α)) (key : String) : Except PyError α :=
  match dictGet? d key with
  | some v => Except.ok v
  | none => Except.error (PyError.keyError key)

/-- Reading the `"start"`/`"end"` key of an interval dict (`KeyError` when the
field was never set). -/
def fieldGetE (o : Option ℚ) (field : String) : Except PyError ℚ :=
  match o with
  | some v => Except.ok v
  | none => Except.error (PyError.keyError field)

/-- A Python list/dict comprehension whose body may raise: elements are
produced left to right and the first exception aborts the whole comprehension. -/
def exceptMap {α β : Type} (f : α → Except PyError β) : List α → Except PyError (List β)
  | [] => Except.ok []
  | x :: xs =>
    match f x with
    | Except.error e => Except.error e
    | Except.ok y =>
      match exceptMap f xs with
      | Except.error e => Except.error e
      | Except.ok ys => Except.ok (y :: ys)

/-- Whether an `Except` value is a success (Python: the call did not raise). -/
def isOk {ε α : Type} (x : Except ε α) : Bool :=
  match x with
  | Except.ok _ => true
  | Except.error _ => false

/-- `copy.deepcopy` on the pure values of the embedding: an independent value
copy, i.e. the identity on immutable Lean values. -/
def deepcopy {α : Type} (x : α) : α := x

/-- State of a `ReconMetadata` instance.  `start_time`/`end_time` are `Option`
because the Python attributes do not exist until `start`/`end` is called;
reading them before that raises `AttributeError`. -/
structure ReconMetadata where
  _current_times : List (String × Interval)
  _previous_times : List (List (String × Interval))
  _identifier : String
  _metadata : List (String × String)
  start_time : Option ℚ
  end_time : Option ℚ
deriving DecidableEq, Repr

/-- `add_metadatum(key, value)`: stores `str(value)` (the caller supplies the
Python `str` conversion for the value's type) and returns the value unchanged
together with the updated state. -/
def add_metadatum {α : Type} (s : ReconMetadata) (key : String) (value : α)
    (str : α → String) : ReconMetadata × α :=
  ({ s with _metadata := dictSet s._metadata key (str value) }, value)

/-- `__init__(identifier)`: empty current/previous timings and metadata, then
`self.add_metadatum("identifier", identifier)` (Python `str` on a `str` is the
identity). -/
def init (identifier : String) : ReconMetadata :=
  (add_metadatum
    { _current_times := []
      _previous_times := []
      _identifier := identifier
      _metadata := []
      start_time := none
      end_time := none }
    "identifier" identifier id).1

/-- `start()`: set overall start to the current time. -/
def start (t : ℚ) (s : ReconMetadata) : ReconMetadata :=
  { s with start_time := some t }

/-- `end()`: set overall end to the current time. -/
def end_ (t : ℚ) (s : ReconMetadata) : ReconMetadata :=
  { s with end_time := some t }

/-- `start_block(name)`: `_current_times[name] = _current_times.get(name, {})`
then `_current_times[name]["start"] = time.time()`. -/
def start_block (block_name : String) (t : ℚ) (s : ReconMetadata) : ReconMetadata :=
  let iv := (dictGet? s._current_times block_name).getD ⟨none, none⟩
  { s with _current_times := dictSet s._current_times block_name { iv with start := some t } }

/-- A single ASCII apostrophe, the quote character of the f-string in
`end_block`. -/
def squoteStr : String := (Char.ofNat 39).toString

/-- The message of the f-string `RuntimeError` raised by `end_block` for an
unknown block: the literal text before the name, the name, the literal text
after it. -/
def blockNotStartedMsg (block_name : String) : String :=
  ("Block " ++ squoteStr) ++ block_name ++ (squoteStr ++ " was not started!")

/-- `end_block(name)`: raise `RuntimeError` when `name` is not a key of the
current frame map, else set the interval's `"end"` to the current time. -/
def end_block (block_name : String) (t : ℚ) (s : ReconMetadata) :
    Except PyError ReconMetadata :=
  match dictGet? s._current_times block_name with
  | none => Except.error (PyError.runtimeError (blockNotStartedMsg block_name))
  | some iv =>
    Except.ok
      { s with _current_times := dictSet s._current_times block_name { iv with end_ := some t } }

/-- `total_duration` property: `timedelta(seconds=self.end_time - self.start_time)`;
the duration in (rational) seconds is returned, reading `end_time` first as the
Python expression does. -/
def total_duration (s : ReconMetadata) : Except PyError ℚ :=
  match s.end_time with
  | none => Except.error (PyError.attributeError "end_time")
  | some e =>
    match s.start_time with
    | none => Except.error (PyError.attributeError "start_time")
    | some st => Except.ok (e - st)

/-- Round-half-to-even of a rational to an integer, as CPython rounds a float
number of seconds to a whole number of microseconds inside `timedelta`. -/
def roundHalfEven (q : ℚ) : ℤ :=
  let f := ⌊q⌋
  if q - f < 1 / 2 then f
  else if 1 / 2 < q - f then f + 1
  else if Even f then f else f + 1

/-- The `.seconds` component of `datetime.timedelta(seconds=d)`: the duration
is normalised to microseconds (round half even), then `.seconds` is the whole
seconds left after removing whole days, a value in `[0, 86400)`. -/
def timedelta_seconds (d : ℚ) : ℤ :=
  (Int.fdiv (roundHalfEven (d * 1000000)) 1000000) % 86400

/-- `_calc_durations`: for every archived frame, map each block to
`timings[key]["end"] - timings[key]["start"]`. -/
def _calc_durations (s : ReconMetadata) : Except PyError (List (List (String × ℚ))) :=
  exceptMap
    (fun timings =>
      exceptMap
        (fun kv =>
          match fieldGetE kv.2.end_ "end" with
          | Except.error e => Except.error e
          | Except.ok e =>
            match fieldGetE kv.2.start "start" with
            | Except.error err => Except.error err
            | Except.ok st => Except.ok (kv.1, e - st))
        timings)
    s._previous_times

/-- The list comprehension `[el[key] for el in durations]` inside
`_calc_averages`. -/
def sumEntries (durations : List (List (String × ℚ))) (key : String) :
    Except PyError (List ℚ) :=
  exceptMap (fun el => dictGetE el key) durations

/-- `_calc_averages(durations)`: keys are taken from `durations[0]` (an
`IndexError` on an empty list); each key maps to
`sum([el[key] for el in durations]) / len(durations)`. -/
def _calc_averages (durations : List (List (String × ℚ))) :
    Except PyError (List (String × ℚ)) :=
  match durations with
  | [] => Except.error PyError.indexError
  | first :: _ =>
    exceptMap
      (fun kv =>
        match sumEntries durations kv.1 with
        | Except.error e => Except.error e
        | Except.ok vals => Except.ok (kv.1, vals.sum / (durations.length : ℚ)))
      first

/-- The list comprehension `[(el[key] - averages[key])**2 for el in durations]`
inside `_calc_deviations`. -/
def sqDevEntries (durations : List (List (String × ℚ)))
    (averages : List (String × ℚ)) (key : String) : Except PyError (List ℚ) :=
  exceptMap
    (fun el =>
      match dictGetE el key with
      | Except.error e => Except.error e
      | Except.ok v =>
        match dictGetE averages key with
        | Except.error e => Except.error e
        | Except.ok avg => Except.ok ((v - avg) ^ 2))
    durations

/-- `_calc_deviations(durations, averages)`: keys from `durations[0]`; each key
maps to `sqrt(sum([(el[key] - averages[key])**2 for el in durations]) / len(durations))`. -/
noncomputable def _calc_deviations (durations : List (List (String × ℚ)))
    (averages : List (String × ℚ)) : Except PyError (List (String × ℝ)) :=
  match durations with
  | [] => Except.error PyError.indexError
  | first :: _ =>
    exceptMap
      (fun kv =>
        match sqDevEntries durations averages kv.1 with
        | Except.error e => Except.error e
        | Except.ok sq =>
          Except.ok (kv.1, Real.sqrt ((sq.sum / (durations.length : ℚ) : ℚ) : ℝ)))
      first

/-- The JSON document written by `save` (its four top-level fields). -/
structure Report where
  metadata : List (String × String)
  averages : List (String × ℚ)
  std_deviations : List (String × ℝ)
  total_seconds : ℤ

/-- `save(outdir)`: compute durations, averages and deviations, build the
timestamped filename, and write the four-field JSON document.  `now` is the
`datetime.now().strftime(...)` component of the filename.  The returned state
is the instance after the call (the method assigns no attribute); the returned
string and `Report` stand for the file written into `outdir`. -/
noncomputable def save (s : ReconMetadata) (now : String) :
    Except PyError (ReconMetadata × String × Report) :=
  match _calc_durations s with
  | Except.error e => Except.error e
  | Except.ok durations =>
    match _calc_averages durations with
    | Except.error e => Except.error e
    | Except.ok averages =>
      match _calc_deviations durations averages with
      | Except.error e => Except.error e
      | Except.ok std_deviations =>
        let filename := now ++ "_metadata_" ++ s._identifier ++ ".json"
        match total_duration s with
        | Except.error e => Except.error e
        | Except.ok td =>
          Except.ok
            (s, filename,
              { metadata := s._metadata
                averages := averages
                std_deviations := std_deviations
                total_seconds := timedelta_seconds td })

/-- `start_frame()`: `self.start_block("frame")`. -/
def start_frame (t : ℚ) (s : ReconMetadata) : ReconMetadata :=
  start_block "frame" t s

/-- `end_frame()`: `end_block("frame")`, compute the frame duration and the
assigned time of all other blocks, write the `"unassigned"` entry via
`self._current_times["unassigned"]["start"] = 0` (a `KeyError` when no such
key exists) and `...["end"] = frame_time - assigned_time`, archive a deep copy
of the current frame map, and reset it to empty. -/
def end_frame (t : ℚ) (s : ReconMetadata) : Except PyError ReconMetadata :=
  match end_block "frame" t s with
  | Except.error e => Except.error e
  | Except.ok s1 =>
    match dictGetE s1._current_times "frame" with
    | Except.error e => Except.error e
    | Except.ok fiv =>
      match fieldGetE fiv.end_ "end" with
      | Except.error e => Except.error e
      | Except.ok fend =>
        match fieldGetE fiv.start "start" with
        | Except.error e => Except.error e
        | Except.ok fstart =>
          let frame_time := fend - fstart
          match exceptMap
              (fun kv =>
                match fieldGetE kv.2.end_ "end" with
                | Except.error e => Except.error e
                | Except.ok e =>
                  match fieldGetE kv.2.start "start" with
                  | Except.error err => Except.error err
                  | Except.ok st => Except.ok (e - st))
              (s1._current_times.filter (fun kv => kv.1 ≠ "frame")) with
          | Except.error e => Except.error e
          | Except.ok others =>
            let assigned_time := others.sum
            match dictGet? s1._current_times "unassigned" with
            | none => Except.error (PyError.keyError "unassigned")
            | some uiv =>
              let cur1 := dictSet s1._current_times "unassigned" { uiv with start := some 0 }
              match dictGet? cur1 "unassigned" with
              | none => Except.error (PyError.keyError "unassigned")
              | some uiv1 =>
                let cur2 := dictSet cur1 "unassigned"
                  { uiv1 with end_ := some (frame_time - assigned_time) }
                Except.ok
                  { s1 with
                    _current_times := []
                    _previous_times := s1._previous_times ++ [deepcopy cur2] }

/-- The `total_seconds` field of the report written by a `save` call, with the
error propagated when `save` raises. -/
noncomputable def savedTotalSeconds (s : ReconMetadata) (now : String) : Except PyError ℤ :=
  match save s now with
  | Except.error e => Except.error e
  | Except.ok out => Except.ok out.2.2.total_seconds

/-- A recorder state after one properly archived frame (frame span 0 to 3 with
one second unassigned) whose run lasted one day plus one second. -/
def archivedRunState : ReconMetadata where
  _current_times := []
  _previous_times := [[("frame", ⟨some 0, some 3⟩), ("unassigned", ⟨some 0, some 1⟩)]]
  _identifier := "t"
  _metadata := [("identifier", "t")]
  start_time := some 0
  end_time := some 86401

/-- A current-frame state in which the reserved block `"unassigned"` happens to
exist and is closed, so that `end_frame` can actually succeed. -/
def w8_state : ReconMetadata where
  _current_times := [("frame", ⟨some 0, none⟩), ("unassigned", ⟨some 1, some 2⟩)]
  _previous_times := []
  _identifier := "t"
  _metadata := [("identifier", "t")]
  start_time := none
  end_time := none

/-- A current-frame state with one completed block `"b"` (start 1, end 2). -/
def w9_state : ReconMetadata where
  _current_times := [("b", ⟨some 1, some 2⟩)]
  _previous_times := []
  _identifier := "x"
  _metadata := [("identifier", "x")]
  start_time := none
  end_time := none

/-! Basic lemmas about the dict and comprehension embedding. -/

theorem dictGet?_dictSet_self {α : Type} (d : List (String × α)) (key : String) (v : α) :
    dictGet? (dictSet d key v) key = some v := by
  induction d with
  | nil => simp [dictSet, dictGet?]
  | cons hd tl ih =>
    obtain ⟨k, w⟩ := hd
    by_cases h : k = key
    · simp [dictSet, h, dictGet?]
    · simp [dictSet, h, dictGet?, ih]

theorem dictGet?_dictSet_ne {α : Type} (d : List (String × α)) (key k2 : String) (v : α)
    (h : k2 ≠ key) : dictGet? (dictSet d key v) k2 = dictGet? d k2 := by
  induction d with
  | nil => simp [dictSet, dictGet?, Ne.symm h]
  | cons hd tl ih =>
    obtain ⟨k, w⟩ := hd
    by_cases hk : k = key
    · subst hk; simp [dictSet, dictGet?, Ne.symm h]
    · simp only [dictSet, hk, if_false, dictGet?]
      by_cases hk2 : k = k2 <;> simp [hk2, ih]

theorem dictGet?_isSome_of_mem {α : Type} {l : List (String × α)} {kv : String × α}
    (h : kv ∈ l) : (dictGet? l kv.1).isSome := by
  induction l with
  | nil => cases h
  | cons hd tl ih =>
    obtain ⟨k1, v1⟩ := hd
    rcases List.mem_cons.mp h with h1 | h1
    · subst h1
      simp [dictGet?]
    · by_cases he : k1 = kv.1 <;> simp [dictGet?, he, ih h1]

theorem exceptMap_all_ok {α β : Type} (f : α → Except PyError β) (g : α → β) :
    ∀ (l : List α), (∀ x ∈ l, f x = Except.ok (g x)) →
      exceptMap f l = Except.ok (l.map g)
  | [], _ => rfl
  | x :: xs, h => by
    have hx := h x (List.mem_cons_self x xs)
    have ih := exceptMap_all_ok f g xs (fun y hy => h y (List.mem_cons_of_mem x hy))
    simp [exceptMap, hx, ih]

theorem sumEntries_ok (key : String) :
    ∀ (ds : List (List (String × ℚ))), (∀ d ∈ ds, (dictGet? d key).isSome) →
      sumEntries ds key = Except.ok (ds.filterMap (fun d => dictGet? d key))
  | [], _ => rfl
  | d :: ds, h => by
    obtain ⟨v, hv⟩ := Option.isSome_iff_exists.mp (h d (List.mem_cons_self d ds))
    have ih := sumEntries_ok key ds (fun y hy => h y (List.mem_cons_of_mem d hy))
    simp only [sumEntries, exceptMap, dictGetE] at ih ⊢
    simp [hv, ih, List.filterMap_cons]

theorem filterMap_dictGet_length (key : String) :
    ∀ (ds : List (List (String × ℚ))), (∀ d ∈ ds, (dictGet? d key).isSome) →
      (ds.filterMap (fun d => dictGet? d key)).length = ds.length
  | [], _ => rfl
  | d :: ds, h => by
    obtain ⟨v, hv⟩ := Option.isSome_iff_exists.mp (h d (List.mem_cons_self d ds))
    have ih := filterMap_dictGet_length key ds (fun y hy => h y (List.mem_cons_of_mem d hy))
    simp [List.filterMap_cons, hv, ih]

theorem sqDevEntries_ok (avgs : List (String × ℚ)) (key : String) (avg : ℚ)
    (havg : dictGet? avgs key = some avg) :
    ∀ (ds : List (List (String × ℚ))), (∀ d ∈ ds, (dictGet? d key).isSome) →
      sqDevEntries ds avgs key
        = Except.ok ((ds.filterMap (fun d => dictGet? d key)).map (fun v => (v - avg) ^ 2))
  | [], _ => rfl
  | d :: ds, h => by
    obtain ⟨v, hv⟩ := Option.isSome_iff_exists.mp (h d (List.mem_cons_self d ds))
    have ih := sqDevEntries_ok avgs key avg havg ds (fun y hy => h y (List.mem_cons_of_mem d hy))
    simp only [sqDevEntries, exceptMap, dictGetE, havg] at ih ⊢
    simp [hv, ih, List.filterMap_cons]

theorem dictGet?_map_byKey {α β : Type} (A : String → β) :
    ∀ (l : List (String × α)) (key : String), (dictGet? l key).isSome →
      dictGet? (l.map (fun kv => (kv.1, A kv.1))) key = some (A key)
  | [], key, h => by simp [dictGet?] at h
  | (k, v) :: rest, key, h => by
    by_cases he : k = key
    · subst he; simp [dictGet?]
    · simp only [dictGet?, he, if_false] at h
      simpa [dictGet?, he] using dictGet?_map_byKey A rest key h

theorem roundHalfEven_intCast (n : ℤ) : roundHalfEven (n : ℚ) = n := by
  simp [roundHalfEven]

theorem end_block_previous (n : String) (t : ℚ) (s s2 : ReconMetadata)
    (h : end_block n t s = Except.ok s2) : s2._previous_times = s._previous_times := by
  unfold end_block at h
  split at h
  · exact Except.noConfusion h
  · cases h; rfl

theorem end_frame_ok_shape (t : ℚ) (s s1 : ReconMetadata)
    (h : end_frame t s = Except.ok s1) :
    s1._current_times = [] ∧ ∃ r, s1._previous_times = s._previous_times ++ [r] := by
  unfold end_frame at h
  split at h
  · exact Except.noConfusion h
  rename_i s2 heb
  split at h
  · exact Except.noConfusion h
  split at h
  · exact Except.noConfusion h
  split at h
  · exact Except.noConfusion h
  split at h
  · exact Except.noConfusion h
  split at h
  · exact Except.noConfusion h
  dsimp only at h
  split at h
  · exact Except.noConfusion h
  cases h
  rw [end_block_previous _ _ _ _ heb]
  exact ⟨rfl, _, rfl⟩

/-! Claim theorems. -/

/-- C1: the claim says a properly closed frame ends with an `"unassigned"`
interval synthesized and archived; instead, on the plainest properly closed
frame (no caller blocks at all) the code raises `KeyError "unassigned"`,
because `end_frame` writes into `_current_times["unassigned"]` without ever
creating that key, and archives nothing. -/
theorem c1_end_frame_keyError_unassigned :
    end_frame 3 (start_frame 0 (init "test")) = Except.error (PyError.keyError "unassigned") := by
  rfl

/-- C2: with zero archived frames, `save` fails before any file output is
produced, but with an uncaught `IndexError` (from `durations[0]` in
`_calc_averages`), not the defined descriptive error the claim requires. -/
theorem c2_save_empty_archive_indexError (s : ReconMetadata) (now : String)
    (h : s._previous_times = []) : save s now = Except.error PyError.indexError := by
  simp [save, _calc_durations, h, exceptMap, _calc_averages]

/-- Witness for C2 at a freshly constructed recorder. -/
theorem c2_witness : save (init "x") "2026-01-01-00-00" = Except.error PyError.indexError :=
  c2_save_empty_archive_indexError (init "x") "2026-01-01-00-00" rfl

/-- C3: `end_block` on a name with no interval recorded in the current frame
raises a `RuntimeError` whose message names the block ("was not started"), and
yields no updated state, so no partial interval is recorded for that name. -/
theorem c3_end_block_not_started (s : ReconMetadata) (n : String) (t : ℚ)
    (h : dictGet? s._current_times n = none) :
    end_block n t s = Except.error (PyError.runtimeError (blockNotStartedMsg n)) ∧
      (∃ pre post : String, blockNotStartedMsg n = pre ++ n ++ post) ∧
      ∀ s2, end_block n t s ≠ Except.ok s2 := by
  refine ⟨?_, ⟨"Block " ++ squoteStr, squoteStr ++ " was not started!", rfl⟩, ?_⟩
  · simp [end_block, h]
  · intro s2 hc
    simp [end_block, h] at hc

/-- Witness for C3: ending the never-started block `"x"` of a fresh recorder. -/
theorem c3_witness :
    end_block "x" 1 (init "t") = Except.error (PyError.runtimeError (blockNotStartedMsg "x")) ∧
      (∃ pre post : String, blockNotStartedMsg "x" = pre ++ "x" ++ post) ∧
      ∀ s2, end_block "x" 1 (init "t") ≠ Except.ok s2 :=
  c3_end_block_not_started (init "t") "x" 1 rfl

/-- C5: counterexample evaluation — the statistics keys come from the first
archived frame only, so the union name `"b"` is silently dropped when it first
appears in a later frame, and a first-frame name missing from a later frame
raises `KeyError` instead of being excluded from that name's average. -/
theorem c5_first_frame_keys :
    _calc_averages [[("a", (1 : ℚ))], [("a", 3), ("b", 5)]] = Except.ok [("a", 2)] ∧
      _calc_averages [[("a", (3 : ℚ)), ("b", 5)], [("a", 1)]]
        = Except.error (PyError.keyError "b") := by
  have hab : ("a" : String) ≠ "b" := by decide
  have hba : ("b" : String) ≠ "a" := by decide
  constructor <;>
    norm_num [_calc_averages, sumEntries, exceptMap, dictGetE, dictGet?, hab, hba]

/-- C6: counterexample evaluation — for a run that starts at 0 and ends at
86401 (one day plus one second), the saved `total_seconds` is the `.seconds`
component of the `timedelta`, namely 1, not the 86401 whole seconds of the run
duration that the claim requires. -/
theorem c6_total_seconds_wraps :
    savedTotalSeconds archivedRunState "2026-01-01-00-00" = Except.ok 1 ∧ (86401 : ℤ) ≠ 1 := by
  refine ⟨?_, by decide⟩
  simp [savedTotalSeconds, save, _calc_durations, _calc_deviations, _calc_averages,
    archivedRunState, exceptMap, dictGetE, dictGet?, fieldGetE, sumEntries, sqDevEntries,
    total_duration, timedelta_seconds]
  rw [show (86401 * 1000000 : ℚ) = ((86401000000 : ℤ) : ℚ) by norm_num, roundHalfEven_intCast]
  decide

/-- C7: `add_metadatum` stores the stringified value under the key, overwrites
on a repeated key, leaves every other key alone, returns the original value
unchanged; and construction stores the run identifier under `"identifier"`. -/
theorem c7_add_metadatum {α : Type} (s : ReconMetadata) (key : String) (value : α)
    (str : α → String) (identifier : String) :
    (add_metadatum s key value str).2 = value ∧
      dictGet? (add_metadatum s key value str).1._metadata key = some (str value) ∧
      (∀ k2, k2 ≠ key →
        dictGet? (add_metadatum s key value str).1._metadata k2 = dictGet? s._metadata k2) ∧
      dictGet? (init identifier)._metadata "identifier" = some identifier := by
  refine ⟨rfl, ?_, ?_, rfl⟩
  · simp [add_metadatum, dictGet?_dictSet_self]
  · intro k2 h
    simp [add_metadatum, dictGet?_dictSet_ne _ _ _ _ h]

/-- Witness for C7 with a non-string value. -/
theorem c7_witness :
    (add_metadatum (init "run") "k" (5 : ℕ) toString).2 = 5 ∧
      dictGet? (add_metadatum (init "run") "k" (5 : ℕ) toString).1._metadata "k" = some "5" ∧
      dictGet? (add_metadatum (init "run") "k" (5 : ℕ) toString).1._metadata "identifier"
        = dictGet? (init "run")._metadata "identifier" ∧
      dictGet? (init "run")._metadata "identifier" = some "run" := by
  obtain ⟨h1, h2, h3, h4⟩ := c7_add_metadatum (init "run") "k" (5 : ℕ) toString "run"
  exact ⟨h1, h2, h3 "identifier" (by decide), h4⟩

/-- C9: `start_block` on a name that already has an interval in the current
frame (even a completed one) overwrites only the `start` field; the previously
recorded `end` stays in place. -/
theorem c9_start_block_keeps_stale_end (s : ReconMetadata) (n : String) (t : ℚ)
    (iv : Interval) (h : dictGet? s._current_times n = some iv) :
    dictGet? (start_block n t s)._current_times n
      = some { start := some t, end_ := iv.end_ } := by
  simp [start_block, h, dictGet?_dictSet_self]

/-- Witness for C9: re-arming the completed block `"b"` keeps its stale end. -/
theorem c9_witness :
    dictGet? (start_block "b" 7 w9_state)._current_times "b"
      = some { start := some (7 : ℚ), end_ := some 2 } :=
  c9_start_block_keeps_stale_end w9_state "b" 7 ⟨some 1, some 2⟩ rfl

/-- C4: on a non-empty archive whose frame duration records all carry exactly
the same set of block names, `_calc_averages` maps every name to the
arithmetic mean of its per-frame durations and `_calc_deviations` maps it to
the population standard deviation of those durations: the sum of squared
deviations from the mean, divided by the frame count (not count minus one),
then the square root. -/
theorem c4_uniform_mean_popstddev (durations : List (List (String × ℚ)))
    (first : List (String × ℚ)) (rest : List (List (String × ℚ)))
    (hcons : durations = first :: rest)
    (huni : ∀ d ∈ durations, ∀ k,
      (dictGet? d k).isSome = true ↔ (dictGet? first k).isSome = true) :
    ∃ avgs devs,
      _calc_averages durations = Except.ok avgs ∧
        _calc_deviations durations avgs = Except.ok devs ∧
        ∀ key, (dictGet? first key).isSome = true →
          ((durations.filterMap (fun d => dictGet? d key)).length = durations.length ∧
            dictGet? avgs key
              = some ((durations.filterMap (fun d => dictGet? d key)).sum
                  / (durations.length : ℚ)) ∧
            dictGet? devs key
              = some (Real.sqrt
                  ((((durations.filterMap (fun d => dictGet? d key)).map
                        (fun v => (v - (durations.filterMap (fun d => dictGet? d key)).sum
                            / (durations.length : ℚ)) ^ 2)).sum
                      / (durations.length : ℚ) : ℚ) : ℝ))) := by
  subst hcons
  have hall : ∀ key, (dictGet? first key).isSome = true →
      ∀ d ∈ first :: rest, (dictGet? d key).isSome = true :=
    fun key hk d hd => (huni d hd key).mpr hk
  refine ⟨first.map (fun kv => (kv.1,
      ((first :: rest).filterMap (fun d => dictGet? d kv.1)).sum
        / (((first :: rest).length : ℚ)))),
    first.map (fun kv => (kv.1, Real.sqrt
      (((((first :: rest).filterMap (fun d => dictGet? d kv.1)).map
            (fun v => (v - ((first :: rest).filterMap (fun d => dictGet? d kv.1)).sum
                / (((first :: rest).length : ℚ))) ^ 2)).sum
          / (((first :: rest).length : ℚ)) : ℚ) : ℝ))), ?_, ?_, ?_⟩
  · simp only [_calc_averages]
    apply exceptMap_all_ok
    intro kv hkv
    have hks := dictGet?_isSome_of_mem hkv
    have hs := sumEntries_ok kv.1 (first :: rest) (hall kv.1 hks)
    rw [hs]
  · simp only [_calc_deviations]
    apply exceptMap_all_ok
    intro kv hkv
    have hks := dictGet?_isSome_of_mem hkv
    have havg := dictGet?_map_byKey
      (fun key => ((first :: rest).filterMap (fun d => dictGet? d key)).sum
        / (((first :: rest).length : ℚ))) first kv.1 hks
    have hsq := sqDevEntries_ok _ kv.1 _ havg (first :: rest) (hall kv.1 hks)
    rw [hsq]
  · intro key hk
    refine ⟨filterMap_dictGet_length key (first :: rest) (hall key hk), ?_, ?_⟩
    · exact dictGet?_map_byKey
        (fun k2 => ((first :: rest).filterMap (fun d => dictGet? d k2)).sum
          / (((first :: rest).length : ℚ))) first key hk
    · exact dictGet?_map_byKey
        (fun k2 => Real.sqrt
          (((((first :: rest).filterMap (fun d => dictGet? d k2)).map
                (fun v => (v - ((first :: rest).filterMap (fun d => dictGet? d k2)).sum
                    / (((first :: rest).length : ℚ))) ^ 2)).sum
              / (((first :: rest).length : ℚ)) : ℚ) : ℝ)) first key hk

/-- Witness for C4 on the two-frame uniform archive with durations
`[[("a", 1)], [("a", 3)]]`. -/
theorem c4_witness :
    ∃ avgs devs,
      _calc_averages [[("a", (1 : ℚ))], [("a", 3)]] = Except.ok avgs ∧
        _calc_deviations [[("a", (1 : ℚ))], [("a", 3)]] avgs = Except.ok devs ∧
        ∀ key, (dictGet? [("a", (1 : ℚ))] key).isSome = true →
          (([[("a", (1 : ℚ))], [("a", 3)]].filterMap (fun d => dictGet? d key)).length
              = [[("a", (1 : ℚ))], [("a", 3)]].length ∧
            dictGet? avgs key
              = some (([[("a", (1 : ℚ))], [("a", 3)]].filterMap
                    (fun d => dictGet? d key)).sum
                  / ([[("a", (1 : ℚ))], [("a", 3)]].length : ℚ)) ∧
            dictGet? devs key
              = some (Real.sqrt
                  (((([[("a", (1 : ℚ))], [("a", 3)]].filterMap (fun d => dictGet? d key)).map
                        (fun v => (v - ([[("a", (1 : ℚ))], [("a", 3)]].filterMap
                              (fun d => dictGet? d key)).sum
                            / ([[("a", (1 : ℚ))], [("a", 3)]].length : ℚ)) ^ 2)).sum
                      / ([[("a", (1 : ℚ))], [("a", 3)]].length : ℚ) : ℚ) : ℝ))) := by
  apply c4_uniform_mean_popstddev [[("a", (1 : ℚ))], [("a", 3)]] [("a", (1 : ℚ))]
    [[("a", 3)]] rfl
  intro d hd k
  simp only [List.mem_cons, List.not_mem_nil, or_false] at hd
  rcases hd with rfl | rfl
  · exact Iff.rfl
  · by_cases h : ("a" : String) = k <;> simp [dictGet?, h]

/-- C8: a successful `end_frame` appends exactly one archived record (the deep
copy of the finished frame) to the archive and resets the current frame map to
empty; and no later `start_block`, `end_block`, `start_frame` or `end_frame`
call changes existing archive entries — each call either leaves the archive
untouched or extends it at the end, so every previously archived record stays
immune to later mutation of the working state. -/
theorem c8_archive_append_only (t : ℚ) (s s1 : ReconMetadata)
    (h : end_frame t s = Except.ok s1) :
    s1._current_times = [] ∧
      (∃ r, s1._previous_times = s._previous_times ++ [r]) ∧
      (∀ (s0 : ReconMetadata) (n : String) (t2 : ℚ),
        (start_block n t2 s0)._previous_times = s0._previous_times) ∧
      (∀ (s0 s2 : ReconMetadata) (n : String) (t2 : ℚ),
        end_block n t2 s0 = Except.ok s2 → s2._previous_times = s0._previous_times) ∧
      (∀ (s0 : ReconMetadata) (t2 : ℚ),
        (start_frame t2 s0)._previous_times = s0._previous_times) ∧
      (∀ (s0 s2 : ReconMetadata) (t2 : ℚ),
        end_frame t2 s0 = Except.ok s2 →
          ∃ l, s2._previous_times = s0._previous_times ++ l) := by
  obtain ⟨hc, hr⟩ := end_frame_ok_shape t s s1 h
  refine ⟨hc, hr, fun s0 n t2 => rfl,
    fun s0 s2 n t2 h2 => end_block_previous n t2 s0 s2 h2, fun s0 t2 => rfl,
    fun s0 s2 t2 h2 => ?_⟩
  obtain ⟨-, r, hr2⟩ := end_frame_ok_shape t2 s0 s2 h2
  exact ⟨[r], hr2⟩

/-- Witness for C8: a frame whose caller (mis)started a block named
`"unassigned"` and closed it, the only situation in which the code's
`end_frame` can succeed at all. -/
theorem c8_witness :
    (∃ s1, end_frame 3 w8_state = Except.ok s1) ∧
      ∀ s1, end_frame 3 w8_state = Except.ok s1 →
        s1._current_times = [] ∧
          ∃ r, s1._previous_times = w8_state._previous_times ++ [r] := by
  constructor
  · exact ⟨_, rfl⟩
  · intro s1 h
    obtain ⟨hc, hr, -⟩ := c8_archive_append_only 3 w8_state s1 h
    exact ⟨hc, hr⟩

/-- C10: a successful `save` leaves the recorder state unchanged (the state
it returns is the input state: archive, current frame map, metadata and run
timestamps all as before), and a second `save` on that state succeeds with the
identical report — same metadata, averages, standard deviations and total
seconds; only the timestamped filename component differs. -/
theorem c10_save_pure (s : ReconMetadata) (now1 now2 : String)
    (h : isOk (save s now1) = true) :
    ∃ fn1 r, save s now1 = Except.ok (s, fn1, r) ∧
      save s now2 = Except.ok (s, now2 ++ "_metadata_" ++ s._identifier ++ ".json", r) := by
  cases h1 : _calc_durations s with
  | error e => simp [save, h1, isOk] at h
  | ok durations =>
    cases h2 : _calc_averages durations with
    | error e => simp [save, h1, h2, isOk] at h
    | ok averages =>
      cases h3 : _calc_deviations durations averages with
      | error e => simp [save, h1, h2, h3, isOk] at h
      | ok devs =>
        cases h4 : total_duration s with
        | error e => simp [save, h1, h2, h3, h4, isOk] at h
        | ok td =>
          refine ⟨now1 ++ "_metadata_" ++ s._identifier ++ ".json",
            ⟨s._metadata, averages, devs, timedelta_seconds td⟩, ?_, ?_⟩ <;>
            simp [save, h1, h2, h3, h4]

/-- Witness for C10 on a state with one archived frame. -/
theorem c10_witness :
    isOk (save archivedRunState "a") = true ∧
      ∃ fn1 r, save archivedRunState "a" = Except.ok (archivedRunState, fn1, r) ∧
        save archivedRunState "b"
          = Except.ok
              (archivedRunState, "b" ++ "_metadata_" ++ archivedRunState._identifier ++ ".json",
                r) :=
  ⟨rfl, c10_save_pure archivedRunState "a" "b" rfl⟩

end Timing
